import Mathlib

/-!
Verification development for the key-phrase-to-substandard mapper
(`key_phrase_mapper.py`, driven by `run.py`).

The Python program is dynamically typed, so oracle payloads are embedded as a
small universe `PyVal` of Python/JSON values (strings, integers, `None`, lists,
dicts; booleans and floats play no role in the mapper and are omitted).  A
Python `dict` is embedded as an insertion-ordered association list (`PyDict`);
CPython dicts iterate in insertion order, which is the order the loops in
`analyze_output_dict` see.  Fallible Python code (a raised exception) is
embedded as `Option`: `Option.none` marks the path on which the Python code
raises or returns `None`.
-/

mutual

inductive PyVal where
  | str (s : String)
  | int (n : Int)
  | null
  | list (xs : PyList)
  | dict (kvs : PyDict)
deriving DecidableEq

inductive PyList where
  | nil
  | cons (v : PyVal) (tl : PyList)
deriving DecidableEq

inductive PyDict where
  | nil
  | cons (k : String) (v : PyVal) (tl : PyDict)
deriving DecidableEq

end

/-- Length of an embedded Python list (`len(value)` on a list). -/
def PyList.length : PyList → Nat
  | .nil => 0
  | .cons _ tl => 1 + tl.length

/-- The elements of an embedded Python list, as a Lean list. -/
def PyList.toList : PyList → List PyVal
  | .nil => []
  | .cons v tl => v :: tl.toList

/-- Build an embedded Python list from a Lean list. -/
def PyList.ofList : List PyVal → PyList
  | [] => .nil
  | v :: tl => .cons v (PyList.ofList tl)

/-- The key/value pairs of an embedded Python dict, in insertion order. -/
def PyDict.entries : PyDict → List (String × PyVal)
  | .nil => []
  | .cons k v tl => (k, v) :: tl.entries

/-- Build an embedded Python dict from a Lean association list. -/
def PyDict.ofList : List (String × PyVal) → PyDict
  | [] => .nil
  | (k, v) :: tl => .cons k v (PyDict.ofList tl)

/-- The values of an embedded Python dict in iteration order
(`output.values()`). -/
def PyDict.values (d : PyDict) : List PyVal :=
  d.entries.map Prod.snd

/-- Python `dict.get(key)`: the value of the first matching key, if any
(a real Python dict has unique keys, so first match is the match). -/
def pyGet (d : PyDict) (key : String) : Option PyVal :=
  (d.entries.find? (fun p => p.1 == key)).map Prod.snd

/-- The Python `isinstance(value, list)` test. -/
def PyVal.isList : PyVal → Bool
  | .list _ => true
  | _ => false

/-- The Python `isinstance(value, dict)` test. -/
def PyVal.isDict : PyVal → Bool
  | .dict _ => true
  | _ => false

/-- Whether a Python value is hashable on its own: strings, integers and
`None` are; lists and dicts are not. -/
def PyVal.atomHashable : PyVal → Bool
  | .str _ => true
  | .int _ => true
  | .null => true
  | .list _ => false
  | .dict _ => false

/-- Whether every element of an embedded list is hashable, i.e. whether the
tuple `tuple(value)` built from the list can itself be hashed. -/
def PyList.allAtomHashable : PyList → Bool
  | .nil => true
  | .cons v tl => v.atomHashable && tl.allAtomHashable

/-- Whether `hashable_value` (the value after the `tuple(...)` conversion in
`analyze_output_dict`) can be hashed, i.e. whether `hashable_value in
seen_values` runs without raising `TypeError`. -/
def hashOk : PyVal → Bool
  | .list xs => xs.allAtomHashable
  | v => v.atomHashable

/-- The hashable snapshot `tuple(value) if isinstance(value, list) else value`
used by the uniqueness loop of `analyze_output_dict`.  A Python tuple is never
equal to a list or to any other non-tuple value, so the two constructors are
kept distinct. -/
inductive HVal where
  | tup (xs : PyList)
  | raw (v : PyVal)
deriving DecidableEq

/-- The `tuple(value) if isinstance(value, list) else value` conversion. -/
def toHashable : PyVal → HVal
  | .list xs => .tup xs
  | v => .raw v

/-- Contribution of one dict value to the `total` accumulator of
`analyze_output_dict`: `len(value)` for lists, nothing otherwise. -/
def pyLen : PyVal → Nat
  | .list xs => xs.length
  | _ => 0

/-- The counting loop of `analyze_output_dict`
(`for value in output.values(): if isinstance(value, list): total += len(value)`). -/
def sumLoop : List PyVal → Nat → Nat
  | [], total => total
  | v :: vs, total => sumLoop vs (total + pyLen v)

/-- The uniqueness loop of `analyze_output_dict`.  Each value is converted with
`toHashable`; the membership test `hashable_value in seen_values` first hashes
the value, so an unhashable value raises `TypeError` (embedded as
`Option.none`) even when `seen_values` already holds a duplicate.  On a
duplicate the loop breaks with `is_unique = False` before looking at later
values. -/
def uniqLoop : List PyVal → List HVal → Option Bool
  | [], _ => some true
  | v :: vs, seen =>
    if hashOk v then
      if toHashable v ∈ seen then some false
      else uniqLoop vs (toHashable v :: seen)
    else Option.none

/-- Embedding of `analyze_output_dict(output)`: returns
`(total, is_unique)`, or `Option.none` when the uniqueness loop raises
`TypeError` on an unhashable value (the count loop itself never raises). -/
def analyze_output_dict (output : PyDict) : Option (Nat × Bool) :=
  match uniqLoop output.values [] with
  | some is_unique => some (sumLoop output.values 0, is_unique)
  | Option.none => Option.none

/-- One content block of an oracle response: its `type` tag and, for
tool-style blocks, the structured `input` payload. -/
structure ContentBlock where
  type : String
  input : PyVal
deriving DecidableEq

/-- Outcome of one `claude_client.messages.create` call: either the call
raises, or it returns a response whose `content` is a list of blocks. -/
inductive AttemptResult where
  | exn
  | response (content : List ContentBlock)

/-- The retry loop of `get_mapping`, with the attempt index `k` and the number
of loop iterations still available.  Returns the result together with the
number of client calls actually made.  On a response, the first block whose
`type` equals the tool-use tag supplies the payload; a response with no such
block returns `None` from inside the `try`, ending the loop at once. -/
def getMappingLoop (client : Nat → AttemptResult) : Nat → Nat → Option PyVal × Nat
  | _, 0 => (Option.none, 0)
  | k, rem + 1 =>
    match client k with
    | .response blocks =>
      match blocks.find? (fun c => c.type == "tool_use") with
      | some c => (some c.input, 1)
      | Option.none => (Option.none, 1)
    | .exn =>
      let r := getMappingLoop client (k + 1) rem
      (r.1, r.2 + 1)

/-- Embedding of `get_mapping(event, substandards, key_phrases, max_retries=5)`.
The external client is abstracted as a function from the attempt index to that
attempt's outcome; the prompt-building and sleeping have no bearing on the
returned value. -/
def get_mapping (client : Nat → AttemptResult) (max_retries : Nat := 5) : Option PyVal :=
  (getMappingLoop client 0 max_retries).1

/-- Number of client calls `get_mapping` performs (instrumentation of the same
loop; the source logs one line per attempt). -/
def getMappingCalls (client : Nat → AttemptResult) (max_retries : Nat := 5) : Nat :=
  (getMappingLoop client 0 max_retries).2

/-- One output row as assembled by `process_objective` (`row_data`). -/
structure RowData where
  learning_objective : String
  substandards : List String
  key_phrases : List String
  thinking : PyVal
  mapping : PyDict
  num_key_phrases : Nat
  total_mapped : Nat
  all_unique : String
deriving DecidableEq

/-- Embedding of `process_objective`.  `sinkOk` abstracts the CSV append under
the lock: `false` means the write raises (the inner `except` catches it and no
row lands in the file).  The function returns the row that reaches the output
file, or `Option.none` when the job is dropped.  Every Python exception path —
a non-dict payload (`.get` on it raises `AttributeError`), a `TypeError`
inside `analyze_output_dict`, the failed write — is caught by the
`try`/`except` blocks of the source, so the embedding is total and returns
`Option.none` on each of those paths.  The source reads `scratchpad` with a
defaulting `.get` before the shape check; that read is pure and is inlined
into the assembled row here. -/
def process_objective (sinkOk : Bool) (client : Nat → AttemptResult)
    (learning_objective : String) (substandards key_phrases : List String) :
    Option RowData :=
  match get_mapping client with
  | Option.none => Option.none
  | some mapping_result =>
    match mapping_result with
    | .dict kvs =>
      match (pyGet kvs ("substandards")).getD (.dict .nil) with
      | .dict substandards_mapping =>
        match analyze_output_dict substandards_mapping with
        | some (total_count, is_unique) =>
          if sinkOk then
            some { learning_objective := learning_objective
                   substandards := substandards
                   key_phrases := key_phrases
                   thinking := (pyGet kvs ("scratchpad")).getD (.str (""))
                   mapping := substandards_mapping
                   num_key_phrases := key_phrases.length
                   total_mapped := total_count
                   all_unique := if is_unique then "Yes" else "No" }
          else Option.none
        | Option.none => Option.none
      | _ => Option.none
    | _ => Option.none

/-- One job as loaded by the orchestrator: a learning objective with its
substandards and key phrases. -/
structure Job where
  learning_objective : String
  substandards : List String
  key_phrases : List String
deriving DecidableEq

/-- The submission filter of `orchestrator`: a job whose learning objective is
empty (`if not learning_objective`) is skipped and never handed to the pool. -/
def submittedJobs (jobs : List Job) : List Job :=
  jobs.filter (fun j => !(j.learning_objective == ""))

/-- The rows that reach the output artifact: every submitted job runs
`process_objective` and contributes its row when one is written.  Worker
completion order is nondeterministic in the source; this embedding fixes
submission order, which is harmless for the membership properties proved
below. -/
def orchestratorRows (sinkOk : Bool) (client : Job → Nat → AttemptResult)
    (jobs : List Job) : List RowData :=
  (submittedJobs jobs).filterMap (fun j =>
    process_objective sinkOk (client j) j.learning_objective j.substandards j.key_phrases)

/-! ## Helper lemmas about the statistics loops -/

theorem sumLoop_eq (vs : List PyVal) (t : Nat) :
    sumLoop vs t = t + (vs.map pyLen).sum := by
  induction vs generalizing t with
  | nil => simp [sumLoop]
  | cons v vs ih => simp [sumLoop, ih]; ring

theorem toHashable_injective : Function.Injective toHashable := by
  intro a b h
  cases a <;> cases b <;> simp_all [toHashable]

theorem uniqLoop_some_true_iff (vs : List PyVal) (seen : List HVal) :
    uniqLoop vs seen = some true ↔
      (∀ v ∈ vs, hashOk v = true) ∧ (vs.map toHashable).Nodup ∧
        ∀ v ∈ vs, toHashable v ∉ seen := by
  induction vs generalizing seen with
  | nil => simp [uniqLoop]
  | cons v vs ih =>
    simp only [uniqLoop]
    by_cases hv : hashOk v = true
    · rw [if_pos hv]
      by_cases hmem : toHashable v ∈ seen
      · rw [if_pos hmem]
        simp only [List.mem_cons]
        constructor
        · intro h; exact absurd h (by simp)
        · rintro ⟨-, -, hsn⟩
          exact absurd hmem (hsn v (Or.inl rfl))
      · rw [if_neg hmem, ih]
        constructor
        · rintro ⟨hall, hnd, hsn⟩
          refine ⟨?_, ?_, ?_⟩
          · intro w hw
            rcases List.mem_cons.mp hw with rfl | hw
            · exact hv
            · exact hall w hw
          · refine List.Nodup.cons ?_ hnd
            intro hc
            rcases List.mem_map.mp hc with ⟨w, hw, hweq⟩
            exact (hsn w hw) (by simp [hweq])
          · intro w hw
            rcases List.mem_cons.mp hw with rfl | hw
            · exact hmem
            · intro hc
              exact (hsn w hw) (List.mem_cons.mpr (Or.inr hc))
        · rintro ⟨hall, hnd, hsn⟩
          refine ⟨?_, ?_, ?_⟩
          · intro w hw; exact hall w (List.mem_cons.mpr (Or.inr hw))
          · exact (List.nodup_cons.mp hnd).2
          · intro w hw
            simp only [List.mem_cons]
            push_neg
            refine ⟨?_, ?_⟩
            · intro hc
              exact (List.nodup_cons.mp hnd).1 (hc ▸ List.mem_map_of_mem toHashable hw)
            · exact hsn w (List.mem_cons.mpr (Or.inr hw))
    · rw [if_neg hv]
      constructor
      · intro h; exact absurd h (by simp)
      · rintro ⟨hall, -, -⟩
        exact absurd (hall v (List.mem_cons.mpr (Or.inl rfl))) hv

theorem uniqLoop_some_false (vs : List PyVal) (seen : List HVal) :
    uniqLoop vs seen = some false →
      ¬ ((vs.map toHashable).Nodup ∧ ∀ v ∈ vs, toHashable v ∉ seen) := by
  induction vs generalizing seen with
  | nil => intro h; exact absurd h (by simp [uniqLoop])
  | cons v vs ih =>
    simp only [uniqLoop]
    by_cases hv : hashOk v = true
    · rw [if_pos hv]
      by_cases hmem : toHashable v ∈ seen
      · rw [if_pos hmem]
        rintro - ⟨-, hsn⟩
        exact (hsn v (List.mem_cons.mpr (Or.inl rfl))) hmem
      · rw [if_neg hmem]
        intro h
        rintro ⟨hnd, hsn⟩
        refine ih (toHashable v :: seen) h ⟨(List.nodup_cons.mp hnd).2, ?_⟩
        intro w hw
        simp only [List.mem_cons]
        push_neg
        refine ⟨?_, ?_⟩
        · intro hc
          exact (List.nodup_cons.mp hnd).1 (hc ▸ List.mem_map_of_mem toHashable hw)
        · exact hsn w (List.mem_cons.mpr (Or.inr hw))
    · rw [if_neg hv]
      intro h
      exact absurd h (by simp)

theorem analyze_some_fst (m : PyDict) (r : Nat × Bool)
    (h : analyze_output_dict m = some r) : r.1 = (m.values.map pyLen).sum := by
  unfold analyze_output_dict at h
  rcases hu : uniqLoop m.values [] with _ | u
  · rw [hu] at h; exact absurd h (by simp)
  · rw [hu] at h
    simp only [Option.some.injEq] at h
    rw [← h]
    simpa using sumLoop_eq m.values 0

theorem analyze_some_snd_iff (m : PyDict) (r : Nat × Bool)
    (h : analyze_output_dict m = some r) : (r.2 = true ↔ m.values.Nodup) := by
  unfold analyze_output_dict at h
  rcases hu : uniqLoop m.values [] with _ | u
  · rw [hu] at h; exact absurd h (by simp)
  · rw [hu] at h
    simp only [Option.some.injEq] at h
    rw [← h]
    show u = true ↔ m.values.Nodup
    constructor
    · intro ht
      rw [ht] at hu
      rcases (uniqLoop_some_true_iff m.values []).mp hu with ⟨-, hnd, -⟩
      exact (List.nodup_map_iff toHashable_injective).mp hnd
    · intro hnd
      cases u with
      | true => rfl
      | false =>
        exact absurd ⟨(List.nodup_map_iff toHashable_injective).mpr hnd, by simp⟩
          (uniqLoop_some_false m.values [] hu)

/-! ## Helper lemmas about the retry loop -/

theorem getMappingLoop_all_exn (client : Nat → AttemptResult)
    (hc : ∀ j, client j = .exn) (n k : Nat) :
    getMappingLoop client k n = (Option.none, n) := by
  induction n generalizing k with
  | zero => rfl
  | succ n ih =>
    simp only [getMappingLoop, hc k]
    simp [ih (k + 1)]

theorem getMappingLoop_prefix_exn (client : Nat → AttemptResult)
    (d : Nat) : ∀ k0 rem blocks, d < rem →
    (∀ j, j < d → client (k0 + j) = .exn) →
    client (k0 + d) = .response blocks →
    getMappingLoop client k0 rem =
      ((blocks.find? (fun c => c.type == "tool_use")).map ContentBlock.input, d + 1) := by
  induction d with
  | zero =>
    intro k0 rem blocks hrem hpre hresp
    cases rem with
    | zero => exact absurd hrem (by omega)
    | succ r =>
      rw [Nat.add_zero] at hresp
      simp only [getMappingLoop, hresp]
      rcases hf : blocks.find? (fun c => c.type == "tool_use") with _ | c <;> simp [hf]
  | succ d ih =>
    intro k0 rem blocks hrem hpre hresp
    cases rem with
    | zero => exact absurd hrem (by omega)
    | succ r =>
      have h0 : client k0 = .exn := by
        have := hpre 0 (by omega)
        simpa using this
      simp only [getMappingLoop, h0]
      have ihv := ih (k0 + 1) r blocks (by omega)
        (fun j hj => by
          have := hpre (j + 1) (by omega)
          rwa [show k0 + (j + 1) = k0 + 1 + j by omega] at this)
        (by rwa [show k0 + 1 + d = k0 + (d + 1) by omega])
      simp [ihv]

/-! ## Inversion of a successful `process_objective` run -/

theorem process_objective_some (sinkOk : Bool) (client : Nat → AttemptResult)
    (lo : String) (ss kp : List String) (row : RowData)
    (h : process_objective sinkOk client lo ss kp = some row) :
    sinkOk = true ∧ row.learning_objective = lo ∧ row.substandards = ss ∧
      row.key_phrases = kp ∧ row.num_key_phrases = kp.length ∧
      ∃ kvs u, get_mapping client = some (.dict kvs) ∧
        (pyGet kvs ("substandards")).getD (.dict .nil) = .dict row.mapping ∧
        analyze_output_dict row.mapping = some (row.total_mapped, u) ∧
        row.all_unique = (if u then "Yes" else "No") ∧
        row.thinking = (pyGet kvs ("scratchpad")).getD (.str ("")) := by
  unfold process_objective at h
  split at h
  · exact Option.noConfusion h
  · split at h
    · split at h
      · split at h
        · split at h
          · rename_i x1 x2 kvs1 hg x3 m hsub x4 t u ha hs
            injection h with h
            subst h
            exact ⟨hs, rfl, rfl, rfl, rfl, kvs1, u, hg, hsub, ha, rfl, rfl⟩
          · exact Option.noConfusion h
        · exact Option.noConfusion h
      · exact Option.noConfusion h
    · exact Option.noConfusion h

theorem process_objective_eq_some (client : Nat → AttemptResult)
    (lo : String) (ss kp : List String) (kvs m : PyDict) (t : Nat) (u : Bool)
    (hg : get_mapping client = some (.dict kvs))
    (hsub : (pyGet kvs ("substandards")).getD (.dict .nil) = .dict m)
    (ha : analyze_output_dict m = some (t, u)) :
    process_objective true client lo ss kp = some
      { learning_objective := lo
        substandards := ss
        key_phrases := kp
        thinking := (pyGet kvs ("scratchpad")).getD (.str (""))
        mapping := m
        num_key_phrases := kp.length
        total_mapped := t
        all_unique := if u then "Yes" else "No" } := by
  unfold process_objective
  rw [hg]
  simp only [hsub, ha]
  simp

theorem not_nodup_iff_exists_get {α : Type} (l : List α) :
    ¬ l.Nodup ↔ ∃ i j : Fin l.length, i ≠ j ∧ l.get i = l.get j := by
  rw [List.nodup_iff_injective_get]
  unfold Function.Injective
  push_neg
  constructor
  · rintro ⟨i, j, hij, hne⟩; exact ⟨i, j, hne, hij⟩
  · rintro ⟨i, j, hne, hij⟩; exact ⟨i, j, hij, hne⟩

/-! ## Claim C3 -/

/-- Claim C3: on a client whose call raises on every attempt, `get_mapping`
makes exactly `max_retries` calls and then returns `None`; on a client whose
first call succeeds with a tool-use block it makes exactly one call and
returns that block's input payload. -/
theorem c3_retry_exhaustion_and_first_success (client : Nat → AttemptResult) (n : Nat) :
    ((∀ k, client k = .exn) →
      get_mapping client n = Option.none ∧ getMappingCalls client n = n) ∧
    (∀ blocks c, client 0 = .response blocks →
      blocks.find? (fun b => b.type == "tool_use") = some c → 1 ≤ n →
      get_mapping client n = some c.input ∧ getMappingCalls client n = 1) := by
  constructor
  · intro hc
    unfold get_mapping getMappingCalls
    rw [getMappingLoop_all_exn client hc n 0]
    exact ⟨rfl, rfl⟩
  · intro blocks c hresp hfind hn
    cases n with
    | zero => exact absurd hn (by omega)
    | succ r =>
      unfold get_mapping getMappingCalls
      simp [getMappingLoop, hresp, hfind]

/-- A client that raises on every attempt. -/
def alwaysRaises : Nat → AttemptResult := fun _ => .exn

/-- A client whose every call returns one tool-use block. -/
def firstCallTool : Nat → AttemptResult :=
  fun _ => .response [{ type := "tool_use", input := PyVal.str ("payload") }]

/-- Concrete instance of claim C3: five calls then failure on the
always-raising client; one call and the payload on the first-call success. -/
theorem c3_witness :
    (get_mapping alwaysRaises 5 = Option.none ∧ getMappingCalls alwaysRaises 5 = 5) ∧
    (get_mapping firstCallTool 5 = some (PyVal.str ("payload")) ∧
      getMappingCalls firstCallTool 5 = 1) := by
  have h1 := (c3_retry_exhaustion_and_first_success alwaysRaises 5).1 (fun k => rfl)
  have h2 := (c3_retry_exhaustion_and_first_success firstCallTool 5).2
    [{ type := "tool_use", input := PyVal.str ("payload") }]
    { type := "tool_use", input := PyVal.str ("payload") } rfl (by decide) (by omega)
  exact ⟨h1, h2⟩

/-! ## Claim C6 -/

/-- Claim C6: when the first non-raising attempt (attempt `k`, all earlier
attempts raised) returns a response, the result of `get_mapping` is decided
inside that attempt: the input payload of the first tool-use block if one
exists, `None` otherwise — and in either case no further client call is made
(`k + 1` calls in total). -/
theorem c6_response_decides_attempt (client : Nat → AttemptResult) (n k : Nat)
    (blocks : List ContentBlock) (hk : k < n)
    (hpre : ∀ j, j < k → client j = .exn)
    (hresp : client k = .response blocks) :
    get_mapping client n =
      (blocks.find? (fun c => c.type == "tool_use")).map ContentBlock.input ∧
    getMappingCalls client n = k + 1 := by
  unfold get_mapping getMappingCalls
  rw [getMappingLoop_prefix_exn client k 0 n blocks hk
    (fun j hj => by simpa using hpre j hj) (by simpa using hresp)]
  exact ⟨rfl, rfl⟩

/-- A client whose first call returns a response with no tool-use block. -/
def noToolBlock : Nat → AttemptResult :=
  fun _ => .response [{ type := "text", input := PyVal.null }]

/-- Concrete instance of claim C6: a first-attempt response with only a text
block yields `None` after exactly one client call. -/
theorem c6_witness :
    get_mapping noToolBlock 5 = Option.none ∧ getMappingCalls noToolBlock 5 = 1 := by
  have h := c6_response_decides_attempt noToolBlock 5 0
    [{ type := "text", input := PyVal.null }] (by omega)
    (fun j hj => absurd hj (by omega)) rfl
  exact ⟨h.1, h.2⟩

/-! ## Claim C5 -/

/-- Claim C5: whenever `analyze_output_dict` produces a result, its first
component (`total_mapped`) equals the sum of the lengths of the list values of
the mapping (non-list values count zero), and is a non-negative integer. -/
theorem c5_total_is_sum_of_list_lengths (m : PyDict) (r : Nat × Bool)
    (h : analyze_output_dict m = some r) :
    r.1 = (m.values.map pyLen).sum ∧ 0 ≤ r.1 :=
  ⟨analyze_some_fst m r h, Nat.zero_le _⟩

/-- A mapping with a two-phrase list, an empty list and a stray string. -/
def c5SampleMapping : PyDict :=
  PyDict.cons ("A")
    (PyVal.list (PyList.cons (PyVal.str ("x")) (PyList.cons (PyVal.str ("y")) PyList.nil)))
    (PyDict.cons ("B") (PyVal.list PyList.nil)
      (PyDict.cons ("C") (PyVal.str ("stray")) PyDict.nil))

/-- Concrete instance of claim C5 at `c5SampleMapping`: total 2. -/
theorem c5_witness :
    ((2, true) : Nat × Bool).1 = (c5SampleMapping.values.map pyLen).sum ∧
      0 ≤ ((2, true) : Nat × Bool).1 :=
  c5_total_is_sum_of_list_lengths c5SampleMapping (2, true) (by decide)

/-! ## Claim C10 -/

/-- Claim C10: in a mapping none of whose values is a list, every value
contributes zero to `total_mapped`, and the uniqueness flag still compares the
raw values: the result is `is_unique = false` exactly when two positions hold
equal values — e.g. a mapping assigning the same string to two substandards
comes out non-unique with total 0. -/
theorem c10_nonlist_values_zero_and_compared (m : PyDict) (r : Nat × Bool)
    (hnl : ∀ v ∈ m.values, v.isList = false)
    (h : analyze_output_dict m = some r) :
    r.1 = 0 ∧ (r.2 = false ↔ ∃ i j : Fin m.values.length, i ≠ j ∧
      m.values.get i = m.values.get j) := by
  constructor
  · rw [analyze_some_fst m r h]
    apply List.sum_eq_zero
    intro x hx
    rcases List.mem_map.mp hx with ⟨v, hv, rfl⟩
    have hb := hnl v hv
    cases v <;> first
      | rfl
      | exact absurd hb (by simp [PyVal.isList])
  · have hsnd : r.2 = true ↔ m.values.Nodup := analyze_some_snd_iff m r h
    rw [← not_nodup_iff_exists_get]
    constructor
    · intro hf hnd
      have := hsnd.mpr hnd
      rw [hf] at this
      exact Bool.noConfusion this
    · intro hnnd
      cases hr2 : r.2 with
      | false => rfl
      | true => exact absurd (hsnd.mp hr2) hnnd

/-- A mapping assigning the same raw string to two substandards. -/
def c10SampleMapping : PyDict :=
  PyDict.cons ("A") (PyVal.str ("x")) (PyDict.cons ("B") (PyVal.str ("x")) PyDict.nil)

/-- Concrete instance of claim C10 at `c10SampleMapping`: total 0 and
non-unique. -/
theorem c10_witness :
    ((0, false) : Nat × Bool).1 = 0 ∧
      (((0, false) : Nat × Bool).2 = false ↔
        ∃ i j : Fin c10SampleMapping.values.length, i ≠ j ∧
          c10SampleMapping.values.get i = c10SampleMapping.values.get j) :=
  c10_nonlist_values_zero_and_compared c10SampleMapping (0, false) (by decide) (by decide)

/-! ## Claim C4 -/

/-- Claim C4: for every mapping written to the output whose values are all
phrase lists, the "All Key Phrases Mapped Unique?" column is "No" exactly when
at least two positions of the mapping hold identical phrase lists, compared as
order-sensitive sequences (two empty lists included). -/
theorem c4_no_iff_duplicate_lists (sinkOk : Bool) (client : Nat → AttemptResult)
    (lo : String) (ss kp : List String) (row : RowData)
    (h : process_objective sinkOk client lo ss kp = some row)
    (_hl : ∀ v ∈ row.mapping.values, v.isList = true) :
    row.all_unique = "No" ↔ ∃ i j : Fin row.mapping.values.length, i ≠ j ∧
      row.mapping.values.get i = row.mapping.values.get j := by
  rcases process_objective_some sinkOk client lo ss kp row h with
    ⟨-, -, -, -, -, kvs, u, -, -, ha, hau, -⟩
  have hsnd : u = true ↔ row.mapping.values.Nodup :=
    analyze_some_snd_iff row.mapping (row.total_mapped, u) ha
  have hno : row.all_unique = "No" ↔ u = false := by
    rw [hau]; cases u <;> simp
  rw [hno, ← not_nodup_iff_exists_get]
  constructor
  · intro hf hnd
    have := hsnd.mpr hnd
    rw [hf] at this
    exact Bool.noConfusion this
  · intro hnnd
    cases hu : u with
    | false => rfl
    | true => exact absurd (hsnd.mp hu) hnnd

/-- The embedded list `[x, y]`. -/
def xyPhrases : PyVal :=
  PyVal.list (PyList.cons (PyVal.str ("x")) (PyList.cons (PyVal.str ("y")) PyList.nil))

/-- The mapping `{A: [x, y], B: [x, y]}` repeating one phrase list. -/
def duplicateListMapping : PyDict :=
  PyDict.cons ("A") xyPhrases (PyDict.cons ("B") xyPhrases PyDict.nil)

/-- A client answering with `duplicateListMapping` on every call. -/
def duplicateListClient : Nat → AttemptResult :=
  fun _ => .response
    [⟨"tool_use", PyVal.dict
      (PyDict.cons ("substandards") (PyVal.dict duplicateListMapping) PyDict.nil)⟩]

/-- The row `process_objective` writes for `duplicateListClient`. -/
def c4Row : RowData :=
  { learning_objective := "LO4"
    substandards := []
    key_phrases := []
    thinking := PyVal.str ("")
    mapping := duplicateListMapping
    num_key_phrases := 0
    total_mapped := 4
    all_unique := "No" }

/-- Concrete instance of claim C4: the mapping `{A: [x,y], B: [x,y]}` is
written with the uniqueness column set to "No". -/
theorem c4_witness : c4Row.all_unique = "No" :=
  (c4_no_iff_duplicate_lists true duplicateListClient ("LO4") [] [] c4Row
      (by decide) (by decide)).mpr
    ⟨⟨0, by decide⟩, ⟨1, by decide⟩, by decide, by decide⟩

/-! ## Claim C7 -/

/-- Claim C7: `process_objective` is total in the embedding (the source wraps
the whole body and the sink write in `try`/`except`, so no exception escapes
to the caller), and on each failure path — oracle failure, a non-dict payload,
a non-dict `substandards` field, a `TypeError` inside the statistics, or a
failing sink write — no output row is produced. -/
theorem c7_failures_produce_no_row (sinkOk : Bool) (client : Nat → AttemptResult)
    (lo : String) (ss kp : List String) :
    (get_mapping client = Option.none →
      process_objective sinkOk client lo ss kp = Option.none) ∧
    (∀ mr, get_mapping client = some mr → mr.isDict = false →
      process_objective sinkOk client lo ss kp = Option.none) ∧
    (∀ kvs, get_mapping client = some (.dict kvs) →
      ((pyGet kvs ("substandards")).getD (.dict .nil)).isDict = false →
      process_objective sinkOk client lo ss kp = Option.none) ∧
    (∀ kvs m, get_mapping client = some (.dict kvs) →
      (pyGet kvs ("substandards")).getD (.dict .nil) = .dict m →
      analyze_output_dict m = Option.none →
      process_objective sinkOk client lo ss kp = Option.none) ∧
    (sinkOk = false → process_objective sinkOk client lo ss kp = Option.none) := by
  refine ⟨?_, ?_, ?_, ?_, ?_⟩
  · intro hg
    unfold process_objective
    rw [hg]
  · intro mr hg hd
    unfold process_objective
    rw [hg]
    cases mr <;> first
      | rfl
      | exact absurd hd (by simp [PyVal.isDict])
  · intro kvs hg hd
    unfold process_objective
    rw [hg]
    rcases hv : (pyGet kvs ("substandards")).getD (.dict .nil) with s | nv | _ | xs | m <;>
      simp only [hv]
    rw [hv] at hd
    exact absurd hd (by simp [PyVal.isDict])
  · intro kvs m hg hsub ha
    unfold process_objective
    rw [hg]
    simp only [hsub, ha]
  · intro hs
    subst hs
    unfold process_objective
    repeat' split
    all_goals simp_all

/-- Concrete instance of claim C7: with a failing sink write, no row is
produced even though the oracle succeeded. -/
theorem c7_witness :
    process_objective false duplicateListClient ("LO7") [] [] = Option.none :=
  (c7_failures_produce_no_row false duplicateListClient ("LO7") [] []).2.2.2.2 rfl

/-! ## Claim C1 -/

/-- A client whose payload carries only a scratchpad and no substandards key. -/
def noSubstandardsClient : Nat → AttemptResult :=
  fun _ => .response
    [⟨"tool_use", PyVal.dict (PyDict.cons ("scratchpad") (PyVal.str ("thoughts")) PyDict.nil)⟩]

/-- Counterexample to claim C1 as stated: the oracle payload contains no
`substandards` key at all, yet `process_objective` writes a row (with the
defaulted empty mapping) instead of dropping the job. -/
theorem c1_counterexample :
    pyGet (PyDict.cons ("scratchpad") (PyVal.str ("thoughts")) PyDict.nil) ("substandards") =
      Option.none ∧
    process_objective true noSubstandardsClient ("LO1") [] [] = some
      { learning_objective := "LO1"
        substandards := []
        key_phrases := []
        thinking := PyVal.str ("thoughts")
        mapping := PyDict.nil
        num_key_phrases := 0
        total_mapped := 0
        all_unique := "Yes" } := by
  constructor
  · decide
  · decide

/-- Claim C1 amended: when the payload's `substandards` key is absent, the
value defaults to the empty dict, which passes the `isinstance(..., dict)`
check, so the job is written with an empty mapping (total 0, all unique)
rather than dropped; the shape check rejects only a present-but-non-dict
value, and every written row's mapping is the payload's `substandards` value
after that defaulting. -/
theorem c1_amended_absent_mapping_defaults (sinkOk : Bool)
    (client : Nat → AttemptResult) (lo : String) (ss kp : List String) :
    (∀ kvs, get_mapping client = some (.dict kvs) →
      pyGet kvs ("substandards") = Option.none →
      process_objective true client lo ss kp = some
        { learning_objective := lo
          substandards := ss
          key_phrases := kp
          thinking := (pyGet kvs ("scratchpad")).getD (.str (""))
          mapping := PyDict.nil
          num_key_phrases := kp.length
          total_mapped := 0
          all_unique := "Yes" }) ∧
    (∀ row, process_objective sinkOk client lo ss kp = some row →
      ∃ kvs, get_mapping client = some (.dict kvs) ∧
        (pyGet kvs ("substandards")).getD (.dict .nil) = .dict row.mapping) := by
  constructor
  · intro kvs hg hnone
    have h := process_objective_eq_some client lo ss kp kvs PyDict.nil 0 true hg
      (by rw [hnone]; rfl) (by decide)
    simpa using h
  · intro row h
    rcases process_objective_some sinkOk client lo ss kp row h with
      ⟨-, -, -, -, -, kvs, u, hg, hsub, -, -, -⟩
    exact ⟨kvs, hg, hsub⟩

/-- Concrete instance of the amended claim C1: the scratchpad-only payload is
written with the defaulted empty mapping. -/
theorem c1_witness :
    process_objective true noSubstandardsClient ("LO1b") [] [("k1"), ("k2")] = some
      { learning_objective := "LO1b"
        substandards := []
        key_phrases := [("k1"), ("k2")]
        thinking := PyVal.str ("thoughts")
        mapping := PyDict.nil
        num_key_phrases := 2
        total_mapped := 0
        all_unique := "Yes" } := by
  have h := (c1_amended_absent_mapping_defaults true noSubstandardsClient ("LO1b") []
    [("k1"), ("k2")]).1
    (PyDict.cons ("scratchpad") (PyVal.str ("thoughts")) PyDict.nil) (by decide) (by decide)
  simpa using h

/-! ## Claim C2 -/

/-- A client mapping one phrase to substandard A even though the job's
key-phrase list is empty. -/
def overMappingClient : Nat → AttemptResult :=
  fun _ => .response
    [⟨"tool_use", PyVal.dict (PyDict.cons ("substandards") (PyVal.dict
      (PyDict.cons ("A") (PyVal.list (PyList.cons (PyVal.str ("x")) PyList.nil)) PyDict.nil))
      PyDict.nil)⟩]

/-- The row written for `overMappingClient` on a job with zero key phrases. -/
def c2Row : RowData :=
  { learning_objective := "LO2"
    substandards := []
    key_phrases := []
    thinking := PyVal.str ("")
    mapping := PyDict.cons ("A") (PyVal.list (PyList.cons (PyVal.str ("x")) PyList.nil)) PyDict.nil
    num_key_phrases := 0
    total_mapped := 1
    all_unique := "Yes" }

/-- Counterexample to claim C2 as stated: nothing caps the total against the
job's key-phrase count — an over-mapping oracle yields a written row whose
`Total Key Phrases Mapped` (1) exceeds `Number of Key Phrases` (0). -/
theorem c2_counterexample :
    process_objective true overMappingClient ("LO2") [] [] = some c2Row ∧
      ¬ (c2Row.total_mapped ≤ c2Row.num_key_phrases) := by
  constructor
  · decide
  · decide

/-- Claim C2 amended: for every job successfully written, `Total Key Phrases
Mapped` equals the sum of mapped-list lengths of that row's mapping, and
`Number of Key Phrases` is the length of the job's key-phrase list; the code
never enforces `Total Key Phrases Mapped ≤ Number of Key Phrases`, and the
bound fails for an over-mapping oracle response. -/
theorem c2_total_equals_sum (sinkOk : Bool) (client : Nat → AttemptResult)
    (lo : String) (ss kp : List String) (row : RowData)
    (h : process_objective sinkOk client lo ss kp = some row) :
    row.total_mapped = (row.mapping.values.map pyLen).sum ∧
      row.num_key_phrases = kp.length := by
  rcases process_objective_some sinkOk client lo ss kp row h with
    ⟨-, -, -, -, hnum, kvs, u, -, -, ha, -, -⟩
  exact ⟨analyze_some_fst row.mapping (row.total_mapped, u) ha, hnum⟩

/-- Concrete instance of the amended claim C2 at `c2Row`. -/
theorem c2_witness :
    c2Row.total_mapped = (c2Row.mapping.values.map pyLen).sum ∧
      c2Row.num_key_phrases = ([] : List String).length :=
  c2_total_equals_sum true overMappingClient ("LO2") [] [] c2Row (by decide)

/-! ## Claim C9 -/

/-- Claim C9: when the payload's `substandards` value is a dict (and its
statistics evaluate), the job is written even if the `scratchpad` key is
absent — the Thinking column defaults to the empty string instead of the job
being dropped. -/
theorem c9_missing_scratchpad_defaults (client : Nat → AttemptResult)
    (lo : String) (ss kp : List String) (kvs m : PyDict) (r : Nat × Bool)
    (hg : get_mapping client = some (.dict kvs))
    (hnos : pyGet kvs ("scratchpad") = Option.none)
    (hsub : pyGet kvs ("substandards") = some (.dict m))
    (ha : analyze_output_dict m = some r) :
    process_objective true client lo ss kp = some
      { learning_objective := lo
        substandards := ss
        key_phrases := kp
        thinking := PyVal.str ("")
        mapping := m
        num_key_phrases := kp.length
        total_mapped := r.1
        all_unique := if r.2 then "Yes" else "No" } := by
  rcases r with ⟨t, u⟩
  have h := process_objective_eq_some client lo ss kp kvs m t u hg (by rw [hsub]; rfl) ha
  rw [h]
  simp [hnos]

/-- A client whose payload has a `substandards` dict but no scratchpad. -/
def noScratchpadClient : Nat → AttemptResult :=
  fun _ => .response
    [⟨"tool_use", PyVal.dict (PyDict.cons ("substandards") (PyVal.dict PyDict.nil) PyDict.nil)⟩]

/-- Concrete instance of claim C9: the scratchpad-free payload is written with
an empty Thinking column. -/
theorem c9_witness :
    process_objective true noScratchpadClient ("LO9") [] [] = some
      { learning_objective := "LO9"
        substandards := []
        key_phrases := []
        thinking := PyVal.str ("")
        mapping := PyDict.nil
        num_key_phrases := 0
        total_mapped := 0
        all_unique := "Yes" } :=
  c9_missing_scratchpad_defaults noScratchpadClient ("LO9") [] []
    (PyDict.cons ("substandards") (PyVal.dict PyDict.nil) PyDict.nil) PyDict.nil (0, true)
    (by decide) (by decide) (by decide) (by decide)

/-! ## Claim C8 -/

/-- Claim C8: a loaded job whose learning-objective identifier is empty is
never submitted to the pool, and consequently no row of the output artifact
carries an empty identifier. -/
theorem c8_empty_objective_never_written (jobs : List Job) (sinkOk : Bool)
    (client : Job → Nat → AttemptResult) :
    (∀ j ∈ submittedJobs jobs, j.learning_objective ≠ "") ∧
    (∀ row ∈ orchestratorRows sinkOk client jobs, row.learning_objective ≠ "") := by
  have hsubm : ∀ j ∈ submittedJobs jobs, j.learning_objective ≠ "" := by
    intro j hj
    simp only [submittedJobs, List.mem_filter] at hj
    simpa using hj.2
  refine ⟨hsubm, ?_⟩
  intro row hrow
  simp only [orchestratorRows, List.mem_filterMap] at hrow
  rcases hrow with ⟨j, hj, hproc⟩
  rcases process_objective_some sinkOk (client j) j.learning_objective j.substandards
    j.key_phrases row hproc with ⟨-, hlo, -, -, -, -⟩
  rw [hlo]
  exact hsubm j hj

/-- A batch with one empty-identifier job and one real job. -/
def c8Jobs : List Job :=
  [{ learning_objective := "", substandards := [], key_phrases := [] },
   { learning_objective := "LO8", substandards := [], key_phrases := [] }]

/-- A per-job client used for the C8 instance. -/
def c8Client : Job → Nat → AttemptResult :=
  fun _ => noScratchpadClient

/-- The single row produced for `c8Jobs`. -/
def c8Row : RowData :=
  { learning_objective := "LO8"
    substandards := []
    key_phrases := []
    thinking := PyVal.str ("")
    mapping := PyDict.nil
    num_key_phrases := 0
    total_mapped := 0
    all_unique := "Yes" }

/-- Concrete instance of claim C8: in a batch with an empty-identifier job,
the submitted job and the written row both carry the non-empty identifier. -/
theorem c8_witness :
    (Job.mk ("LO8") [] []).learning_objective ≠ "" ∧ c8Row.learning_objective ≠ "" := by
  constructor
  · exact (c8_empty_objective_never_written c8Jobs true c8Client).1
      (Job.mk ("LO8") [] []) (by decide)
  · exact (c8_empty_objective_never_written c8Jobs true c8Client).2 c8Row (by decide)
